import Mathlib

/-!
Verification of the query-normalization and filter-construction core of the
Social-Good-AI repository.

The Python source is shallowly embedded:
* JSON-like runtime values become the inductive type `Value`; Python dicts
  become insertion-ordered association lists `List (String × Value)` (Python
  dict keys are unique, so first-occurrence update semantics coincide with
  Python assignment).
* Fallible Python code (statements that can raise an exception that the
  function under test does not itself catch) returns `Option`; `none` models
  an escaping exception.
* Python string helpers are embedded on `List Char`: `lowerStr` models
  `str.lower` (ASCII case mapping; identity on the non-Latin scripts that
  occur in the synonym table, as in Python), `pyStrip` models `str.strip()`
  (whitespace trimming), `pySplitWs` models `str.split()` (split on
  whitespace runs, no empty tokens), `pyIn` models the substring test
  `needle in hay`, and `pyStr` models `str(value)`.

Embedded functions (source locations refer to the repository):
* `detect_data_format`, `normalize_query_object`, `build_search_filters`,
  `search_record_array`, `handle_null_empty_fields`, `process_dynamic_data`
  from `src/engines/data_handler.py` (class `DynamicDataHandler`).
* `crime_synonyms`, `translate_synonyms` from
  `src/Crime_Query/engines/query_builder.py`.
-/

/-- JSON-like Python runtime value.  `date` is a `datetime.datetime` at
midnight as produced by `datetime.strptime(s, "%Y-%m-%d")`, stored as
(year, month, day). -/
inductive Value where
  | null : Value
  | bool : Bool → Value
  | int : Int → Value
  | str : String → Value
  | date : Nat → Nat → Nat → Value
  | arr : List Value → Value
  | obj : List (String × Value) → Value

/-- Python truthiness (`bool(v)`) for the embedded values. -/
def pyTruthy : Value → Bool
  | .null => false
  | .bool b => b
  | .int n => n != 0
  | .str s => s != ""
  | .date _ _ _ => true
  | .arr l => !l.isEmpty
  | .obj l => !l.isEmpty

/-- Python `d.get(k)`: the value stored under `k`, or `None` when absent. -/
def pyGet : List (String × Value) → String → Value
  | [], _ => .null
  | (k', v) :: rest, k => if k' == k then v else pyGet rest k

/-- Python `k in d` for a dict. -/
def dictContainsKey : List (String × Value) → String → Bool
  | [], _ => false
  | (k', _) :: rest, k => k' == k || dictContainsKey rest k

/-- Python dict assignment `d[k] = v`: overwrite the (unique) existing entry
for `k`, otherwise append a new entry at the end (insertion order). -/
def dictSet : List (String × Value) → String → Value → List (String × Value)
  | [], k, v => [(k, v)]
  | (k', v') :: rest, k, v =>
    if k' == k then (k, v) :: rest else (k', v') :: dictSet rest k v

/-- Python `str.lower()` (ASCII case mapping; identity on the non-Latin
scripts appearing in the synonym table, as in Python). -/
def lowerStr (s : String) : String := ⟨s.data.map Char.toLower⟩

/-- Characters stripped by Python `str.strip()` / split by `str.split()`. -/
def stripChars (l : List Char) : List Char :=
  ((l.dropWhile Char.isWhitespace).reverse.dropWhile Char.isWhitespace).reverse

/-- Python `s.strip()`: remove leading and trailing whitespace. -/
def pyStrip (s : String) : String := ⟨stripChars s.data⟩

/-- Helper for `pyIn`: list-of-characters prefix test. -/
def startsWithL : List Char → List Char → Bool
  | [], _ => true
  | _ :: _, [] => false
  | a :: as, b :: bs => a == b && startsWithL as bs

/-- Helper for `pyIn`: list-of-characters infix test. -/
def containsL : List Char → List Char → Bool
  | n, [] => n.isEmpty
  | n, b :: t => startsWithL n (b :: t) || containsL n t

/-- Python substring test `needle in hay`. -/
def pyIn (needle hay : String) : Bool := containsL needle.data hay.data

/-- Helper for `pySplitWs`: accumulate the current (reversed) token. -/
def pySplitWsAux : List Char → List Char → List String
  | [], acc => if acc.isEmpty then [] else [⟨acc.reverse⟩]
  | c :: rest, acc =>
    if c.isWhitespace then
      if acc.isEmpty then pySplitWsAux rest []
      else (⟨acc.reverse⟩ : String) :: pySplitWsAux rest []
    else pySplitWsAux rest (c :: acc)

/-- Python `s.split()`: split on runs of whitespace, discarding empties. -/
def pySplitWs (s : String) : List String := pySplitWsAux s.data []

/-- Decimal digits of a numeric field to a number (the field is known to be
all digits when this is applied). -/
def natOfDigits (l : List Char) : Nat := l.foldl (fun n c => n * 10 + (c.toNat - 48)) 0

/-- Split a character list on the literal separator of the `"%Y-%m-%d"`
format. -/
def splitDash : List Char → List (List Char)
  | [] => [[]]
  | c :: rest =>
    match splitDash rest with
    | [] => [[c]]
    | h :: t => if c = '-' then [] :: h :: t else (c :: h) :: t

/-- Day count of a month in the proleptic Gregorian calendar used by
`datetime`. -/
def daysInMonth (y m : Nat) : Nat :=
  if m = 2 then (if y % 4 = 0 ∧ (y % 100 ≠ 0 ∨ y % 400 = 0) then 29 else 28)
  else if m = 4 ∨ m = 6 ∨ m = 9 ∨ m = 11 then 30 else 31

/-- Embedding of `datetime.strptime(s, "%Y-%m-%d")`: `%Y` is exactly four
digits, `%m` and `%d` are one or two digits, the two separators are literal
hyphens, the whole string must be consumed, and the resulting
(year, month, day) triple must denote a valid calendar date (year at least
`datetime.MINYEAR = 1`).  `none` models the raised `ValueError`. -/
def parseYMD (s : String) : Option (Nat × Nat × Nat) :=
  match splitDash s.data with
  | [ys, ms, ds] =>
    if ys.length = 4 ∧ ys.all Char.isDigit ∧
       1 ≤ ms.length ∧ ms.length ≤ 2 ∧ ms.all Char.isDigit ∧
       1 ≤ ds.length ∧ ds.length ≤ 2 ∧ ds.all Char.isDigit then
      let y := natOfDigits ys
      let m := natOfDigits ms
      let d := natOfDigits ds
      if 1 ≤ y ∧ 1 ≤ m ∧ m ≤ 12 ∧ 1 ≤ d ∧ d ≤ daysInMonth y m then
        some (y, m, d)
      else none
    else none
  | _ => none

/-- Zero-padded two-digit rendering, as in `datetime.__str__`. -/
def pad2 (n : Nat) : String := if n < 10 then "0" ++ toString n else toString n

/-- Zero-padded four-digit rendering, as in `datetime.__str__`. -/
def pad4 (n : Nat) : String :=
  if n < 10 then "000" ++ toString n
  else if n < 100 then "00" ++ toString n
  else if n < 1000 then "0" ++ toString n
  else toString n

mutual

/-- Python `repr(value)` for the embedded values (string escaping inside
string contents is not modelled; no claim depends on it). -/
def pyRepr : Value → String
  | .null => "None"
  | .bool true => "True"
  | .bool false => "False"
  | .int n => toString n
  | .str s => "\x27" ++ s ++ "\x27"
  | .date y m d =>
      "datetime.datetime(" ++ toString y ++ ", " ++ toString m ++ ", "
        ++ toString d ++ ", 0, 0)"
  | .arr l => "[" ++ pyReprSeq l ++ "]"
  | .obj l => "\x7b" ++ pyReprPairs l ++ "\x7d"

/-- Comma-separated `repr` of list elements. -/
def pyReprSeq : List Value → String
  | [] => ""
  | [v] => pyRepr v
  | v :: rest => pyRepr v ++ ", " ++ pyReprSeq rest

/-- Comma-separated `repr` of dict items. -/
def pyReprPairs : List (String × Value) → String
  | [] => ""
  | [(k, v)] => "\x27" ++ k ++ "\x27: " ++ pyRepr v
  | (k, v) :: rest => "\x27" ++ k ++ "\x27: " ++ pyRepr v ++ ", " ++ pyReprPairs rest

end

/-- Python `str(value)`.  It agrees with `repr` except on strings (no
quotes) and datetimes (ISO rendering `YYYY-MM-DD HH:MM:SS`). -/
def pyStr : Value → String
  | .str s => s
  | .date y m d => pad4 y ++ "-" ++ pad2 m ++ "-" ++ pad2 d ++ " 00:00:00"
  | v => pyRepr v

/-- Recognized query field names, `data_handler.py` line 28. -/
def query_fields : List String :=
  ["crime_type", "location", "date_start", "date_end", "status", "reported_by"]

/-- Embedding of `DynamicDataHandler.detect_data_format`
(`data_handler.py` lines 16-37).  A dict containing any recognized query
field name is a `"query_object"`; any other dict and every list is a
`"record_array"`; anything else raises `ValueError` (`none`). -/
def detect_data_format (data : Value) : Option String :=
  match data with
  | .obj d =>
    if query_fields.any (fun f => dictContainsKey d f) then some "query_object"
    else some "record_array"
  | .arr _ => some "record_array"
  | _ => none

/-- Python test `value is not None and value != "" and value != []` from
`normalize_query_object` (`data_handler.py` line 52), negated. -/
def isNullLike : Value → Bool
  | .null => true
  | .str s => s == ""
  | .arr l => l.isEmpty
  | _ => false

/-- Embedding of `DynamicDataHandler.normalize_query_object`
(`data_handler.py` lines 39-60): drop null/empty-string/empty-list fields,
strip string values, pass other values through. -/
def normalize_query_object : List (String × Value) → List (String × Value)
  | [] => []
  | (k, v) :: rest =>
    if isNullLike v then normalize_query_object rest
    else match v with
      | .str s => (k, .str (pyStrip s)) :: normalize_query_object rest
      | _ => (k, v) :: normalize_query_object rest

/-- The dict `{"$regex": pattern, "$options": "i"}`. -/
def regexI (pattern : Value) : Value :=
  .obj [("$regex", pattern), ("$options", .str "i")]

/-- The three category conditions built for `crime_type`
(`data_handler.py` lines 78-82), in source order. -/
def catOrList (ct : String) : List Value :=
  [ .obj [("crime_type", regexI (.str ct))],
    .obj [("crime_category", regexI (.str ct))],
    .obj [("crime_subcategory", regexI (.str ct))] ]

/-- The five location conditions (`data_handler.py` lines 87-93), in source
order. -/
def locOrList (loc : String) : List Value :=
  [ .obj [("location", regexI (.str loc))],
    .obj [("city", regexI (.str loc))],
    .obj [("address", regexI (.str loc))],
    .obj [("state", regexI (.str loc))],
    .obj [("country", regexI (.str loc))] ]

/-- The `crime_type` block of `build_search_filters` (`data_handler.py`
lines 74-82).  `filters["$or"] = filters.get("$or", []); filters["$or"]
.extend([...])`.  A truthy non-string raises `AttributeError` on
`.lower()` (`none`). -/
def crimeTypeStep (q f : List (String × Value)) : Option (List (String × Value)) :=
  if pyTruthy (pyGet q "crime_type") then
    match pyGet q "crime_type" with
    | .str s =>
      let prev : List Value := match pyGet f "$or" with | .arr l => l | _ => []
      some (dictSet f "$or" (.arr (prev ++ catOrList (lowerStr s))))
    | _ => none
  else some f

/-- The `location` block of `build_search_filters` (`data_handler.py`
lines 84-99): when an `$or` group already exists the two groups are wrapped
as `{"$and": [{"$or": existing}, {"$or": location_filters}]}`, replacing the
whole filter dict; otherwise the location group becomes the `$or` entry. -/
def locationStep (q f : List (String × Value)) : Option (List (String × Value)) :=
  if pyTruthy (pyGet q "location") then
    match pyGet q "location" with
    | .str s =>
      let location_filters := locOrList (lowerStr s)
      if dictContainsKey f "$or" then
        some [("$and", .arr [ .obj [("$or", pyGet f "$or")],
                              .obj [("$or", .arr location_filters)] ])]
      else some (dictSet f "$or" (.arr location_filters))
    | _ => none
  else some f

/-- One date bound of `build_search_filters` (`data_handler.py`
lines 101-115): on a truthy value, parse it with `strptime`; on success
store the bound; a `ValueError` is caught and the bound silently omitted;
a truthy non-string raises an uncaught `TypeError` (`none`). -/
def dateBoundStep (q : List (String × Value)) (key bound : String)
    (df : List (String × Value)) : Option (List (String × Value)) :=
  if pyTruthy (pyGet q key) then
    match pyGet q key with
    | .str s =>
      match parseYMD s with
      | some (y, m, d) => some (dictSet df bound (.date y m d))
      | none => some df
    | _ => none
  else some df

/-- The tail of `build_search_filters` (`data_handler.py` lines 117-128):
attach the date filter when non-empty, then the `status` and `reported_by`
regex filters. -/
def tailSteps (q f2 df2 : List (String × Value)) : List (String × Value) :=
  let f3 := if df2.isEmpty then f2 else dictSet f2 "date" (.obj df2)
  let f4 := if pyTruthy (pyGet q "status")
            then dictSet f3 "status" (regexI (pyGet q "status")) else f3
  if pyTruthy (pyGet q "reported_by")
  then dictSet f4 "reported_by" (regexI (pyGet q "reported_by")) else f4

/-- Embedding of `DynamicDataHandler.build_search_filters`
(`data_handler.py` lines 62-128), sequencing the blocks in source order;
`none` models an exception escaping the function. -/
def build_search_filters (q : List (String × Value)) : Option (List (String × Value)) :=
  match crimeTypeStep q [] with
  | none => none
  | some f1 =>
    match locationStep q f1 with
    | none => none
    | some f2 =>
      match dateBoundStep q "date_start" "$gte" [] with
      | none => none
      | some df1 =>
        match dateBoundStep q "date_end" "$lte" df1 with
        | none => none
        | some df2 => some (tailSteps q f2 df2)

/-- Match test of `search_record_array` (`data_handler.py` lines 149-167):
some non-`None` field whose `str(value).lower()` contains some search
word. -/
def recordMatches (search_words : List String) (record : List (String × Value)) : Bool :=
  record.any fun kv =>
    match kv.2 with
    | .null => false
    | v => search_words.any fun w => pyIn w (lowerStr (pyStr v))

/-- Embedding of `DynamicDataHandler.search_record_array`
(`data_handler.py` lines 130-173): falsy search terms return the input
unchanged; otherwise the loop appends each matching record, in order, to
the result. -/
def search_record_array (records : List (List (String × Value)))
    (search_terms : String) : List (List (String × Value)) :=
  if search_terms == "" then records
  else
    let search_words := pySplitWs (lowerStr search_terms)
    records.foldl
      (fun acc record => if recordMatches search_words record then acc ++ [record] else acc)
      []

/-- Per-value cleaning of `handle_null_empty_fields` (`data_handler.py`
lines 216-225): `None`, strings with `value.strip() == ""`, and empty lists
become the sentinel `"N/A"`; everything else passes through. -/
def cleanValue : Value → Value
  | .null => .str "N/A"
  | .str s => if pyStrip s == "" then .str "N/A" else .str s
  | .arr l => if l.isEmpty then .str "N/A" else .arr l
  | v => v

/-- Per-record loop of `handle_null_empty_fields` (`data_handler.py`
lines 214-225), building a new dict. -/
def cleanRecord : List (String × Value) → List (String × Value)
  | [] => []
  | (f, v) :: rest => (f, cleanValue v) :: cleanRecord rest

/-- Embedding of `DynamicDataHandler.handle_null_empty_fields`
(`data_handler.py` lines 201-229), building a new record list. -/
def handle_null_empty_fields : List (List (String × Value)) → List (List (String × Value))
  | [] => []
  | record :: rest => cleanRecord record :: handle_null_empty_fields rest

/-- Elements of a record-array payload as records; `none` models the
`AttributeError` raised by `record.items()` on a non-dict element (caught
by the caller `process_dynamic_data`). -/
def asRecordList : List Value → Option (List (List (String × Value)))
  | [] => some []
  | .obj d :: rest => (asRecordList rest).map (fun l => d :: l)
  | _ :: _ => none

/-- The `if search_query:` step of `process_dynamic_data`
(`data_handler.py` lines 270-273): search only on a truthy (present and
non-empty) search string. -/
def applySearch (cleaned : List (List (String × Value)))
    (search_query : Option String) : List (List (String × Value)) :=
  match search_query with
  | some sq => if sq == "" then cleaned else search_record_array cleaned sq
  | none => cleaned

/-- Embedding of `DynamicDataHandler.process_dynamic_data`
(`data_handler.py` lines 231-282).  The whole body is wrapped in
`try/except Exception`, which logs and returns `[]`; therefore every
exception path (in particular the `ValueError` from `detect_data_format`)
produces the empty list instead of propagating. -/
def process_dynamic_data (data : Value) (search_query : Option String) :
    List (List (String × Value)) :=
  match detect_data_format data with
  | none => []
  | some fmt =>
    if fmt == "query_object" then
      match data with
      | .obj d =>
        match build_search_filters (normalize_query_object d) with
        | some filters =>
          [[("query_filters", Value.obj filters), ("format", Value.str "query_object")]]
        | none => []
      | _ => []
    else
      match data with
      | .arr l =>
        match asRecordList l with
        | some records => applySearch (handle_null_empty_fields records) search_query
        | none => []
      | .obj d => applySearch (handle_null_empty_fields [d]) search_query
      | _ => []

/-- The synonym table of `translate_synonyms`
(`src/Crime_Query/engines/query_builder.py` lines 58-130), in Python dict
insertion order.  The source dict literal repeats the Marathi keys
`"चोरी"` and `"चोर"` (already introduced in the Hindi block with the same
value `"theft"`); Python keeps one entry per key at its first position, so
the duplicates are omitted here. -/
def crime_synonyms : List (String × String) :=
  [ ("theft", "theft"), ("stealing", "theft"), ("burglary", "burglary"),
    ("robbery", "robbery"), ("assault", "assault"), ("murder", "murder"),
    ("fraud", "fraud"),
    ("चोरी", "theft"), ("चोरी करना", "theft"), ("चोर", "theft"),
    ("डकैती", "robbery"), ("डकैत", "robbery"), ("हिंसा", "assault"),
    ("हत्या", "murder"), ("धोखा", "fraud"), ("ठगी", "fraud"),
    ("घर में चोरी", "burglary"),
    ("চুরি", "theft"), ("চোর", "theft"), ("ডাকাতি", "robbery"),
    ("হামলা", "assault"), ("হত্যা", "murder"), ("প্রতারণা", "fraud"),
    ("ভাঙচুর", "vandalism"), ("ঘর চুরি", "burglary"),
    ("திருட்டு", "theft"), ("மோசடி", "fraud"), ("கொள்ளை", "robbery"),
    ("தாக்குதல்", "assault"), ("கொலை", "murder"), ("மனைவி திருட்டு", "burglary"),
    ("దొంగతనం", "theft"), ("ఊరిపోక", "robbery"), ("మోసం", "fraud"),
    ("దాడి", "assault"), ("హత్య", "murder"), ("చోరీ", "burglary"),
    ("छापा मारणे", "robbery"), ("हल्ला", "assault"), ("खून", "murder"),
    ("फसवणूक", "fraud"), ("घरफोडी", "burglary"),
    ("ಮೋಸ", "fraud"), ("ಕಳ್ಳತನ", "theft"), ("ದಾಳೆ", "robbery"),
    ("ಹಲ್ಲೆ", "assault"), ("ಕೊಲೆ", "murder"), ("ತೋಟದ ಕಳ್ಳತನ", "burglary"),
    ("ਚੋਰੀ", "theft"), ("ਡਾਕੇਬਾਜ਼ੀ", "robbery"), ("ਹਮਲਾ", "assault"),
    ("ਕਤਲ", "murder"), ("ਠੱਗੀ", "fraud"), ("ਘਰ ਦੀ ਚੋਰੀ", "burglary") ]

/-- Embedding of `translate_synonyms` (`query_builder.py` lines 54-139).
The Python function mutates `query_dict` in place
(`query_dict["crime_category"] = standard`) and then returns the very same
object, so this function gives simultaneously the returned dict and the
post-call contents of the argument.  `none` models the `AttributeError`
raised by `.lower()` on a truthy non-string value. -/
def translate_synonyms (query_dict : List (String × Value)) :
    Option (List (String × Value)) :=
  if pyTruthy (pyGet query_dict "crime_category") then
    match pyGet query_dict "crime_category" with
    | .str s =>
      match crime_synonyms.find? (fun p => pyIn p.1 (lowerStr s)) with
      | some p => some (dictSet query_dict "crime_category" (.str p.2))
      | none => some query_dict
    | _ => none
  else some query_dict

/-- A value that is either a string or falsy: exactly the values on which
the `.lower()` / `strptime` call sites of `build_search_filters` cannot
raise a type error. -/
def strOrFalsy (v : Value) : Bool :=
  match v with
  | .str _ => true
  | v => !pyTruthy v

/-- Queries whose `crime_type`, `location`, `date_start` and `date_end`
entries are strings or falsy, so that `build_search_filters` raises no
type error (the `StructuredQuery` data model gives these fields string or
absent values). -/
def wellTypedQuery (q : List (String × Value)) : Bool :=
  strOrFalsy (pyGet q "crime_type") && strOrFalsy (pyGet q "location") &&
  strOrFalsy (pyGet q "date_start") && strOrFalsy (pyGet q "date_end")

/-- A value that is not a non-empty whitespace-only string. -/
def strNotBlank (v : Value) : Bool :=
  match v with
  | .str s => s == "" || pyStrip s != ""
  | _ => true

/-- No field value of the query is a non-empty whitespace-only string. -/
def noBlankStrings (q : List (String × Value)) : Bool :=
  q.all fun kv => strNotBlank kv.2

/-- Replacement condition in the words of the canonicalization claim, as
amended: the value is null, a string that is empty after trimming, or an
empty list. -/
def isBlankLike : Value → Bool
  | .null => true
  | .str s => pyStrip s == ""
  | .arr l => l.isEmpty
  | _ => false

/-- The contents of the `"date"` entry of a filter dict (empty when the
entry is absent or not a dict). -/
def dateNode (f : List (String × Value)) : List (String × Value) :=
  match pyGet f "date" with
  | .obj l => l
  | _ => []

/-- A value is neither a Python dict nor a Python list. -/
def isDictOrList : Value → Bool
  | .obj _ => true
  | .arr _ => true
  | _ => false

lemma pyGet_dictSet_self (d : List (String × Value)) (k : String) (v : Value) :
    pyGet (dictSet d k v) k = v := by
  induction d with
  | nil => simp [dictSet, pyGet]
  | cons p rest ih =>
    obtain ⟨k', v'⟩ := p
    simp only [dictSet]
    by_cases hk : (k' == k) = true
    · simp [hk, pyGet]
    · simp only [hk, if_false, Bool.false_eq_true]
      simp [pyGet, hk, ih]

lemma pyGet_dictSet_ne (d : List (String × Value)) (k : String) (v : Value)
    (k' : String) (h : k ≠ k') : pyGet (dictSet d k v) k' = pyGet d k' := by
  induction d with
  | nil => simp [dictSet, pyGet, h]
  | cons p rest ih =>
    obtain ⟨k₀, v₀⟩ := p
    simp only [dictSet]
    by_cases hk : (k₀ == k) = true
    · have hk0 : k₀ = k := by simpa using hk
      subst hk0
      simp [pyGet, h, Ne.symm]
    · simp only [hk, if_false, Bool.false_eq_true]
      by_cases hk2 : (k₀ == k') = true
      · simp [pyGet, hk2]
      · simp [pyGet, hk2, ih]

lemma dictContainsKey_dictSet_ne (d : List (String × Value)) (k : String)
    (v : Value) (k' : String) (h : k ≠ k') :
    dictContainsKey (dictSet d k v) k' = dictContainsKey d k' := by
  induction d with
  | nil => simp [dictSet, dictContainsKey, h]
  | cons p rest ih =>
    obtain ⟨k₀, v₀⟩ := p
    simp only [dictSet]
    by_cases hk : (k₀ == k) = true
    · have hk0 : k₀ = k := by simpa using hk
      subst hk0
      simp [dictContainsKey, h]
    · simp only [hk, if_false, Bool.false_eq_true]
      simp [dictContainsKey, ih]

lemma dictSet_keys_of_contains (d : List (String × Value)) (k : String)
    (v : Value) (h : dictContainsKey d k = true) :
    (dictSet d k v).map Prod.fst = d.map Prod.fst := by
  induction d with
  | nil => simp [dictContainsKey] at h
  | cons p rest ih =>
    obtain ⟨k₀, v₀⟩ := p
    simp only [dictSet]
    by_cases hk : (k₀ == k) = true
    · have hk0 : k₀ = k := by simpa using hk
      subst hk0
      simp
    · simp only [hk, if_false, Bool.false_eq_true]
      simp only [dictContainsKey, hk, Bool.false_or] at h
      simp [ih h]

lemma dictContainsKey_of_truthy (q : List (String × Value)) (k : String)
    (h : pyTruthy (pyGet q k) = true) : dictContainsKey q k = true := by
  induction q with
  | nil => simp [pyGet, pyTruthy] at h
  | cons p rest ih =>
    obtain ⟨k₀, v₀⟩ := p
    by_cases hk : (k₀ == k) = true
    · simp [dictContainsKey, hk]
    · simp only [pyGet, hk, if_false, Bool.false_eq_true] at h
      simp [dictContainsKey, hk, ih h]

lemma dropWhile_of_head_false {p : Char → Bool} {l : List Char}
    (h : ∀ a, l.head? = some a → p a = false) : l.dropWhile p = l := by
  cases l with
  | nil => rfl
  | cons a t => simp [List.dropWhile_cons, h a rfl]

lemma getLast?_dropWhile (p : Char → Bool) (l : List Char)
    (h : l.dropWhile p ≠ []) : (l.dropWhile p).getLast? = l.getLast? := by
  induction l with
  | nil => simp at h
  | cons a t ih =>
    by_cases hp : p a = true
    · rw [List.dropWhile_cons_of_pos hp] at h ⊢
      have ht : t ≠ [] := by
        intro e
        subst e
        simp at h
      rw [ih h]
      cases t with
      | nil => exact absurd rfl ht
      | cons b t2 => exact (List.getLast?_cons_cons).symm
    · rw [List.dropWhile_cons_of_neg hp]

lemma head?_dropWhile_false (p : Char → Bool) (l : List Char) :
    ∀ a, (l.dropWhile p).head? = some a → p a = false := by
  intro a ha
  have hne : l.dropWhile p ≠ [] := by
    intro e
    rw [e] at ha
    simp at ha
  have hfa := List.head_dropWhile_not p l hne
  rw [List.head?_eq_head hne, Option.some_inj] at ha
  rw [ha] at hfa
  exact hfa

lemma stripChars_of_clean (v : List Char)
    (h1 : v.dropWhile Char.isWhitespace = v)
    (h2 : v.reverse.dropWhile Char.isWhitespace = v.reverse) :
    stripChars v = v := by
  unfold stripChars
  rw [h1, h2, List.reverse_reverse]

lemma stripChars_idem (l : List Char) : stripChars (stripChars l) = stripChars l := by
  apply stripChars_of_clean
  · apply dropWhile_of_head_false
    intro a ha
    rw [show stripChars l
        = ((l.dropWhile Char.isWhitespace).reverse.dropWhile Char.isWhitespace).reverse
        from rfl] at ha
    rw [List.head?_reverse] at ha
    have hwne : (l.dropWhile Char.isWhitespace).reverse.dropWhile Char.isWhitespace ≠ [] := by
      intro e
      rw [e] at ha
      simp at ha
    rw [getLast?_dropWhile _ _ hwne, List.getLast?_reverse] at ha
    exact head?_dropWhile_false _ l a ha
  · rw [show (stripChars l).reverse
        = (l.dropWhile Char.isWhitespace).reverse.dropWhile Char.isWhitespace from by
      rw [show stripChars l
          = ((l.dropWhile Char.isWhitespace).reverse.dropWhile Char.isWhitespace).reverse
          from rfl, List.reverse_reverse]]
    exact List.dropWhile_idempotent _ _

lemma pyStrip_idem (s : String) : pyStrip (pyStrip s) = pyStrip s := by
  show (⟨stripChars (String.data ⟨stripChars s.data⟩)⟩ : String) = ⟨stripChars s.data⟩
  rw [show String.data ⟨stripChars s.data⟩ = stripChars s.data from rfl, stripChars_idem]

lemma normalize_cons_drop (k : String) (v : Value) (rest : List (String × Value))
    (hnl : isNullLike v = true) :
    normalize_query_object ((k, v) :: rest) = normalize_query_object rest := by
  simp [normalize_query_object, hnl]

lemma normalize_cons_str (k : String) (s : String) (rest : List (String × Value))
    (hs : (s == "") = false) :
    normalize_query_object ((k, Value.str s) :: rest)
      = (k, Value.str (pyStrip s)) :: normalize_query_object rest := by
  simp [normalize_query_object, isNullLike, hs]

lemma normalize_cons_not_str (k : String) (v : Value) (rest : List (String × Value))
    (hnl : isNullLike v = false) (hns : ∀ s, v ≠ Value.str s) :
    normalize_query_object ((k, v) :: rest) = (k, v) :: normalize_query_object rest := by
  cases v
  case str s => exact absurd rfl (hns s)
  all_goals simp [normalize_query_object, isNullLike] at hnl ⊢ <;> simp [hnl]

/-- Claim C7 (amended): query-object normalization is idempotent on every
query none of whose field values is a non-empty whitespace-only string
(the unrestricted claim fails, see the counterexample: a whitespace-only
string survives the first pass as the empty string and is dropped by the
second). -/
theorem normalize_query_object_idem_noblank (q : List (String × Value))
    (h : noBlankStrings q = true) :
    normalize_query_object (normalize_query_object q) = normalize_query_object q := by
  induction q with
  | nil => rfl
  | cons p rest ih =>
    obtain ⟨k, v⟩ := p
    simp only [noBlankStrings, List.all_cons, Bool.and_eq_true] at h
    obtain ⟨hv, hrest⟩ := h
    have ih' := ih (by simpa [noBlankStrings] using hrest)
    by_cases hnl : isNullLike v = true
    · rw [normalize_cons_drop k v rest hnl]
      exact ih'
    · have hnl' : isNullLike v = false := by simpa using hnl
      by_cases hstr : ∃ s, v = Value.str s
      · obtain ⟨s, rfl⟩ := hstr
        have hs : (s == "") = false := by simpa [isNullLike] using hnl'
        have hps : (pyStrip s == "") = false := by
          simp only [strNotBlank, hs, Bool.false_or] at hv
          simpa [bne] using hv
        rw [normalize_cons_str k s rest hs,
            normalize_cons_str k (pyStrip s) (normalize_query_object rest) hps,
            pyStrip_idem, ih']
      · have hns : ∀ s, v ≠ Value.str s := by
          intro s hs
          exact hstr ⟨s, hs⟩
        rw [normalize_cons_not_str k v rest hnl' hns,
            normalize_cons_not_str k v (normalize_query_object rest) hnl' hns, ih']

/-- Counterexample to claim C7 as stated: for the query
`{"crime_category": " "}` the first normalization yields
`{"crime_category": ""}` and the second drops the field, so
`normalize(normalize(q)) ≠ normalize(q)`. -/
theorem normalize_query_object_not_idem_cex :
    normalize_query_object (normalize_query_object [("crime_category", Value.str " ")])
      ≠ normalize_query_object [("crime_category", Value.str " ")] := by
  rw [show normalize_query_object [("crime_category", Value.str " ")]
      = [("crime_category", Value.str "")] from rfl]
  rw [show normalize_query_object [("crime_category", Value.str "")]
      = [] from rfl]
  simp

theorem normalize_query_object_idem_witness :
    normalize_query_object (normalize_query_object
        [("crime_category", Value.str " theft "), ("location", Value.null)])
      = normalize_query_object
        [("crime_category", Value.str " theft "), ("location", Value.null)] :=
  normalize_query_object_idem_noblank
    [("crime_category", Value.str " theft "), ("location", Value.null)] (by decide)

/-- Claim C8 (amended): on every query with no non-empty whitespace-only
string value, the output of normalization satisfies the `NormalizedQuery`
invariant: every present field value is non-null-like (not null, not the
empty string, not the empty list) and string values are trimmed and
non-empty.  (The unrestricted claim fails, see the counterexample.) -/
theorem normalize_query_object_invariant (q : List (String × Value))
    (h : noBlankStrings q = true) :
    ∀ kv ∈ normalize_query_object q, isNullLike kv.2 = false ∧
      (∀ s, kv.2 = Value.str s → pyStrip s = s ∧ s ≠ "") := by
  induction q with
  | nil =>
    intro kv hkv
    simp [normalize_query_object] at hkv
  | cons p rest ih =>
    obtain ⟨k, v⟩ := p
    simp only [noBlankStrings, List.all_cons, Bool.and_eq_true] at h
    obtain ⟨hv, hrest⟩ := h
    have ih' := ih (by simpa [noBlankStrings] using hrest)
    by_cases hnl : isNullLike v = true
    · rw [normalize_cons_drop k v rest hnl]
      exact ih'
    · have hnl' : isNullLike v = false := by simpa using hnl
      by_cases hstr : ∃ s, v = Value.str s
      · obtain ⟨s, rfl⟩ := hstr
        have hs : (s == "") = false := by simpa [isNullLike] using hnl'
        have hps : (pyStrip s == "") = false := by
          simp only [strNotBlank, hs, Bool.false_or] at hv
          simpa [bne] using hv
        intro kv hkv
        rw [normalize_cons_str k s rest hs] at hkv
        rcases List.mem_cons.mp hkv with he | hm
        · subst he
          constructor
          · simpa [isNullLike] using hps
          · intro s' hs'
            have hse : pyStrip s = s' := by
              simpa using hs'
            subst hse
            refine ⟨pyStrip_idem s, ?_⟩
            simpa using hps
        · exact ih' kv hm
      · have hns : ∀ s, v ≠ Value.str s := by
          intro s hs
          exact hstr ⟨s, hs⟩
        intro kv hkv
        rw [normalize_cons_not_str k v rest hnl' hns] at hkv
        rcases List.mem_cons.mp hkv with he | hm
        · subst he
          refine ⟨hnl', ?_⟩
          intro s hs
          exact absurd hs (hns s)
        · exact ih' kv hm

/-- Counterexample to claim C8 as stated: normalizing
`{"crime_category": " "}` keeps the field (its value is not the exact
empty string) and trims it to the empty string, so the output contains a
field whose value is empty — the claimed invariant fails. -/
theorem normalize_query_object_invariant_cex :
    normalize_query_object [("crime_category", Value.str " ")]
        = [("crime_category", Value.str "")]
      ∧ isNullLike (Value.str "") = true :=
  ⟨rfl, rfl⟩

theorem normalize_query_object_invariant_witness :
    isNullLike (Value.str "theft") = false :=
  (normalize_query_object_invariant [("crime_category", Value.str "theft")] (by decide)
    ("crime_category", Value.str "theft")
    (by rw [show normalize_query_object [("crime_category", Value.str "theft")]
        = [("crime_category", Value.str "theft")] from rfl]; exact List.mem_singleton.mpr rfl)).1

lemma cleanValue_eq (v : Value) :
    cleanValue v = if isBlankLike v then Value.str "N/A" else v := by
  cases v <;> simp [cleanValue, isBlankLike]

lemma cleanRecord_spec (r : List (String × Value)) :
    cleanRecord r = r.map (fun kv => (kv.1, if isBlankLike kv.2 then Value.str "N/A" else kv.2)) := by
  induction r with
  | nil => rfl
  | cons kv rest ih =>
    obtain ⟨f, v⟩ := kv
    simp [cleanRecord, cleanValue_eq, ih]

/-- Claim C4 (amended): the canonicalizer replaces a field value with the
sentinel `"N/A"` exactly when the value is null, a string that is empty
after trimming (so a whitespace-only string IS replaced, unlike the claim
as stated), or an empty list; every other value, including the
falsy-but-meaningful `0` and `false`, passes through unchanged. -/
theorem handle_null_empty_fields_spec (records : List (List (String × Value))) :
    handle_null_empty_fields records
      = records.map (fun record => record.map
          (fun kv => (kv.1, if isBlankLike kv.2 then Value.str "N/A" else kv.2))) := by
  induction records with
  | nil => rfl
  | cons r rest ih =>
    simp [handle_null_empty_fields, cleanRecord_spec, ih]

/-- Counterexample to claim C4 as stated: the cleaner applies `strip()`
before the emptiness test, so the whitespace-only string `" "` is replaced
by `"N/A"`, while the claim says it must pass through unchanged. -/
theorem handle_null_empty_fields_whitespace_cex :
    handle_null_empty_fields [[("a", Value.str " ")]] = [[("a", Value.str "N/A")]]
      ∧ Value.str "N/A" ≠ Value.str " " :=
  ⟨rfl, by simp⟩

/-- Claim C5 (amended): when no synonym surface form occurs as a substring
of the lower-cased `crime_category` value, the synonym normalizer leaves
the whole query unchanged — in particular the stored field keeps its
ORIGINAL spelling (the lower-casing is applied only to the local copy used
for matching, not written back, unlike the claim as stated). -/
theorem translate_synonyms_no_match (q : List (String × Value)) (s : String)
    (h1 : pyGet q "crime_category" = Value.str s)
    (h2 : ∀ p ∈ crime_synonyms, pyIn p.1 (lowerStr s) = false) :
    translate_synonyms q = some q := by
  by_cases ht : pyTruthy (pyGet q "crime_category") = true
  · have hfind : crime_synonyms.find? (fun p => pyIn p.1 (lowerStr s)) = none := by
      rw [List.find?_eq_none]
      intro p hp
      simp [h2 p hp]
    simp [translate_synonyms, ht, h1, hfind]
  · have ht' : pyTruthy (pyGet q "crime_category") = false := by simpa using ht
    simp [translate_synonyms, ht']

/-- Counterexample to claim C5 as stated: `"XYZ"` matches no synonym, and
the field comes out as the original `"XYZ"`, not the lower-cased `"xyz"`
that the claim requires. -/
theorem translate_synonyms_case_cex :
    translate_synonyms [("crime_category", Value.str "XYZ")]
        = some [("crime_category", Value.str "XYZ")]
      ∧ lowerStr "XYZ" = "xyz" ∧ ("XYZ" : String) ≠ "xyz" :=
  ⟨rfl, rfl, by decide⟩

theorem translate_synonyms_no_match_witness :
    translate_synonyms [("crime_category", Value.str "XYZ"), ("location", Value.str "Delhi")]
      = some [("crime_category", Value.str "XYZ"), ("location", Value.str "Delhi")] :=
  translate_synonyms_no_match
    [("crime_category", Value.str "XYZ"), ("location", Value.str "Delhi")]
    "XYZ" rfl (by decide)

/-- Claim C6 (amended): `translate_synonyms` mutates its argument in place
and returns that same object (so the post-call input equals the returned
dict and is NOT in general equal to the pre-call input — see the
counterexample); the mutation is confined to the `crime_category` entry:
the key sequence is preserved and every other field keeps its value. -/
theorem translate_synonyms_frame (q d : List (String × Value))
    (h : translate_synonyms q = some d) :
    d.map Prod.fst = q.map Prod.fst ∧
      ∀ k, k ≠ "crime_category" → pyGet d k = pyGet q k := by
  by_cases ht : pyTruthy (pyGet q "crime_category") = true
  · rw [translate_synonyms, if_pos ht] at h
    cases hv : pyGet q "crime_category" with
    | str s =>
      rw [hv] at h
      have h' : (match crime_synonyms.find? (fun p => pyIn p.1 (lowerStr s)) with
          | some p => some (dictSet q "crime_category" (Value.str p.2))
          | none => some q) = some d := h
      clear h
      cases hfind : crime_synonyms.find? (fun p => pyIn p.1 (lowerStr s)) with
      | none =>
        rw [hfind] at h'
        obtain rfl : q = d := by simpa using h'
        exact ⟨rfl, fun k _ => rfl⟩
      | some p =>
        rw [hfind] at h'
        rename' h' => h
        obtain rfl : dictSet q "crime_category" (Value.str p.2) = d := by simpa using h
        have hcont : dictContainsKey q "crime_category" = true :=
          dictContainsKey_of_truthy q "crime_category" ht
        constructor
        · exact dictSet_keys_of_contains q "crime_category" (Value.str p.2) hcont
        · intro k hk
          exact pyGet_dictSet_ne q "crime_category" (Value.str p.2) k (Ne.symm hk)
    | null => rw [hv] at ht; simp [pyTruthy] at ht
    | bool b =>
      rw [hv] at h
      exact absurd h (by simp)
    | int n =>
      rw [hv] at h
      exact absurd h (by simp)
    | date a b c =>
      rw [hv] at h
      exact absurd h (by simp)
    | arr l =>
      rw [hv] at h
      exact absurd h (by simp)
    | obj o =>
      rw [hv] at h
      exact absurd h (by simp)
  · have ht' : pyTruthy (pyGet q "crime_category") = false := by simpa using ht
    rw [translate_synonyms, if_neg (by simp [ht'])] at h
    obtain rfl : q = d := by simpa using h
    exact ⟨rfl, fun k _ => rfl⟩

/-- Counterexample to claim C6 as stated: on input
`{"crime_category": "चोरी"}` the function performs
`query_dict["crime_category"] = "theft"` on its argument and returns that
same object, so after the call the input object holds `"theft"`, not its
original value — the input IS mutated and no new object is produced. -/
theorem translate_synonyms_mutation_cex :
    translate_synonyms [("crime_category", Value.str "चोरी")]
        = some [("crime_category", Value.str "theft")]
      ∧ ("theft" : String) ≠ "चोरी" :=
  ⟨rfl, by decide⟩

theorem translate_synonyms_frame_witness :
    pyGet [("crime_category", Value.str "theft"), ("location", Value.str "Mumbai")] "location"
      = pyGet [("crime_category", Value.str "चोरी"), ("location", Value.str "Mumbai")] "location" :=
  (translate_synonyms_frame
    [("crime_category", Value.str "चोरी"), ("location", Value.str "Mumbai")]
    [("crime_category", Value.str "theft"), ("location", Value.str "Mumbai")]
    rfl).2 "location" (by decide)

/-- Claim C2 (amended): for a payload that is neither a mapping nor a
sequence, `detect_data_format` does raise the unsupported-format error
(`ValueError`, modelled as `none`), but `process_dynamic_data` wraps its
whole body in a catch-all `except` clause that logs the error and returns
`[]` — so the caller of `process` receives a normal empty result and the
error is NOT surfaced to it, contrary to the claim as stated. -/
theorem unsupported_format_swallowed (v : Value) (h : isDictOrList v = false) :
    detect_data_format v = none ∧ ∀ sq, process_dynamic_data v sq = [] := by
  cases v <;> simp_all [isDictOrList, detect_data_format, process_dynamic_data]

/-- Counterexample to claim C2 as stated: `process` on the integer payload
`42` returns the normal empty result `[]` instead of surfacing the
`UnsupportedFormat` error raised by the dispatcher. -/
theorem process_swallows_error_cex :
    process_dynamic_data (Value.int 42) none = []
      ∧ detect_data_format (Value.int 42) = none :=
  ⟨rfl, rfl⟩

theorem unsupported_format_swallowed_witness :
    detect_data_format (Value.str "42") = none
      ∧ process_dynamic_data (Value.str "42") (some "x") = [] :=
  ⟨(unsupported_format_swallowed (Value.str "42") rfl).1,
   (unsupported_format_swallowed (Value.str "42") rfl).2 (some "x")⟩

/-- Claim C10 (amended): a single mapping containing any of the six
recognized query field names — which are `crime_type`, `location`,
`date_start`, `date_end`, `status`, `reported_by`; `crime_category` is NOT
recognized, contrary to the claim as stated — is classified as a query
object regardless of the field's value; a mapping containing none of them
is treated as a one-element record array (`process` cleans the singleton
list of it); and every sequence is a record array unconditionally. -/
theorem detect_data_format_spec (d : List (String × Value)) :
    ((∃ f ∈ query_fields, dictContainsKey d f = true) →
      detect_data_format (Value.obj d) = some "query_object") ∧
    ((∀ f ∈ query_fields, dictContainsKey d f = false) →
      detect_data_format (Value.obj d) = some "record_array" ∧
        process_dynamic_data (Value.obj d) none = handle_null_empty_fields [d]) ∧
    (∀ l, detect_data_format (Value.arr l) = some "record_array") := by
  refine ⟨?_, ?_, ?_⟩
  · intro hex
    have hany : query_fields.any (fun f => dictContainsKey d f) = true := by
      rw [List.any_eq_true]
      obtain ⟨f, hf, hc⟩ := hex
      exact ⟨f, hf, hc⟩
    simp [detect_data_format, hany]
  · intro hall
    have hany : query_fields.any (fun f => dictContainsKey d f) = false := by
      rw [List.any_eq_false]
      intro f hf
      simp [hall f hf]
    refine ⟨by simp [detect_data_format, hany], ?_⟩
    simp [process_dynamic_data, detect_data_format, hany, applySearch]
  · intro l
    simp [detect_data_format]

/-- Counterexample to claim C10 as stated: the recognized field list of
`detect_data_format` contains `crime_type` but not `crime_category`, so the
mapping `{"crime_category": "theft"}` is classified as a record array, not
as the query object the claim requires. -/
theorem detect_data_format_crime_category_cex :
    detect_data_format (Value.obj [("crime_category", Value.str "theft")])
        = some "record_array"
      ∧ ("record_array" : String) ≠ "query_object" :=
  ⟨rfl, by decide⟩

theorem detect_data_format_spec_witness :
    detect_data_format (Value.obj [("location", Value.str "Delhi")]) = some "query_object" :=
  (detect_data_format_spec [("location", Value.str "Delhi")]).1
    ⟨"location", by decide, by decide⟩

lemma foldl_append_filter {α : Type} (p : α → Bool) (l : List α) : ∀ acc : List α,
    l.foldl (fun a x => if p x then a ++ [x] else a) acc = acc ++ l.filter p := by
  induction l with
  | nil =>
    intro acc
    simp
  | cons x xs ih =>
    intro acc
    by_cases h : p x = true
    · simp [List.filter_cons, h, ih, List.append_assoc]
    · have h' : p x = false := by simpa using h
      simp [List.filter_cons, h', ih]

/-- Claim C9: the record-array search is the identity on falsy (empty)
search text, and otherwise returns exactly the sub-sequence of input
records (relative order preserved, records themselves unchanged) matching
`recordMatches`: some whitespace token of the lower-cased query text occurs
in the lower-cased `str()` rendering of some non-null field value. -/
theorem search_record_array_spec (records : List (List (String × Value))) (q : String) :
    (q = "" → search_record_array records q = records) ∧
    (q ≠ "" → search_record_array records q
        = records.filter (recordMatches (pySplitWs (lowerStr q)))) := by
  constructor
  · intro h
    simp [search_record_array, h]
  · intro h
    have hb : (q == "") = false := by simpa [bne] using h
    rw [search_record_array, hb]
    simp only [Bool.false_eq_true, if_false]
    simpa using foldl_append_filter (recordMatches (pySplitWs (lowerStr q))) records []

theorem search_record_array_spec_witness :
    search_record_array
        [[("crime_category", Value.str "Burglary")], [("crime_category", Value.str "Theft")]]
        "burglary"
      = List.filter (recordMatches (pySplitWs (lowerStr "burglary")))
          [[("crime_category", Value.str "Burglary")], [("crime_category", Value.str "Theft")]] :=
  (search_record_array_spec
    [[("crime_category", Value.str "Burglary")], [("crime_category", Value.str "Theft")]]
    "burglary").2 (by decide)

lemma pyTruthy_false_of_strOrFalsy_nonstr (v : Value) (h : strOrFalsy v = true)
    (hns : ∀ s, v ≠ Value.str s) : pyTruthy v = false := by
  cases v
  case str s => exact absurd rfl (hns s)
  all_goals revert h
  all_goals simp [strOrFalsy, pyTruthy]

lemma crimeTypeStep_falsy (q f : List (String × Value))
    (h : pyTruthy (pyGet q "crime_type") = false) : crimeTypeStep q f = some f := by
  simp only [crimeTypeStep]
  rw [if_neg (by simp [h])]

lemma crimeTypeStep_str_nil (q : List (String × Value)) (ct : String)
    (h1 : pyGet q "crime_type" = Value.str ct) (h2 : ct ≠ "") :
    crimeTypeStep q [] = some [("$or", Value.arr (catOrList (lowerStr ct)))] := by
  have ht : pyTruthy (pyGet q "crime_type") = true := by
    rw [h1]
    simp [pyTruthy, h2]
  simp only [crimeTypeStep]
  rw [if_pos ht, h1]
  rfl

lemma crimeTypeStep_total (q f : List (String × Value))
    (h : strOrFalsy (pyGet q "crime_type") = true) :
    ∃ f1, crimeTypeStep q f = some f1 := by
  cases hv : pyGet q "crime_type"
  case str s =>
    simp only [crimeTypeStep, hv]
    by_cases ht : pyTruthy (Value.str s) = true
    · rw [if_pos ht]
      exact ⟨_, rfl⟩
    · rw [if_neg ht]
      exact ⟨f, rfl⟩
  all_goals rw [hv] at h
  all_goals refine ⟨f, crimeTypeStep_falsy q f ?_⟩
  all_goals rw [hv]
  all_goals exact pyTruthy_false_of_strOrFalsy_nonstr _ h (by intro s; simp)

lemma locationStep_falsy (q f : List (String × Value))
    (h : pyTruthy (pyGet q "location") = false) : locationStep q f = some f := by
  simp only [locationStep]
  rw [if_neg (by simp [h])]

lemma locationStep_merge (q f : List (String × Value)) (loc : String)
    (h1 : pyGet q "location" = Value.str loc) (h2 : loc ≠ "")
    (h3 : dictContainsKey f "$or" = true) :
    locationStep q f = some [("$and", Value.arr
      [Value.obj [("$or", pyGet f "$or")],
       Value.obj [("$or", Value.arr (locOrList (lowerStr loc)))]])] := by
  have ht : pyTruthy (pyGet q "location") = true := by
    rw [h1]
    simp [pyTruthy, h2]
  simp only [locationStep]
  rw [if_pos ht, h1]
  simp [h3]

lemma locationStep_total (q f : List (String × Value))
    (h : strOrFalsy (pyGet q "location") = true) :
    ∃ f2, locationStep q f = some f2 := by
  cases hv : pyGet q "location"
  case str s =>
    simp only [locationStep, hv]
    by_cases ht : pyTruthy (Value.str s) = true
    · rw [if_pos ht]
      by_cases hc : dictContainsKey f "$or" = true
      · simp only [hc]
        exact ⟨_, rfl⟩
      · have hc' : dictContainsKey f "$or" = false := by simpa using hc
        simp only [hc']
        exact ⟨_, rfl⟩
    · rw [if_neg ht]
      exact ⟨f, rfl⟩
  all_goals rw [hv] at h
  all_goals refine ⟨f, locationStep_falsy q f ?_⟩
  all_goals rw [hv]
  all_goals exact pyTruthy_false_of_strOrFalsy_nonstr _ h (by intro s; simp)

lemma dateBoundStep_falsy (q : List (String × Value)) (key bound : String)
    (df : List (String × Value)) (h : pyTruthy (pyGet q key) = false) :
    dateBoundStep q key bound df = some df := by
  simp only [dateBoundStep]
  rw [if_neg (by simp [h])]

lemma dateBoundStep_no_add (q : List (String × Value)) (key bound : String)
    (df : List (String × Value)) (s : String)
    (h1 : pyGet q key = Value.str s) (h2 : parseYMD s = none) :
    dateBoundStep q key bound df = some df := by
  by_cases hs : s = ""
  · apply dateBoundStep_falsy
    rw [h1, hs]
    rfl
  · have ht : pyTruthy (pyGet q key) = true := by
      rw [h1]
      simp [pyTruthy, hs]
    simp only [dateBoundStep]
    rw [if_pos ht, h1]
    simp [h2]

lemma dateBoundStep_add (q : List (String × Value)) (key bound : String)
    (df : List (String × Value)) (s : String) (a b c : Nat)
    (h1 : pyGet q key = Value.str s) (h2 : parseYMD s = some (a, b, c)) :
    dateBoundStep q key bound df = some (dictSet df bound (Value.date a b c)) := by
  have hs : s ≠ "" := by
    intro e
    rw [e, show parseYMD "" = none from rfl] at h2
    exact Option.noConfusion h2
  have ht : pyTruthy (pyGet q key) = true := by
    rw [h1]
    simp [pyTruthy, hs]
  simp only [dateBoundStep]
  rw [if_pos ht, h1]
  simp [h2]

lemma dateBoundStep_shape (q : List (String × Value)) (key bound : String)
    (df : List (String × Value)) (h : strOrFalsy (pyGet q key) = true) :
    dateBoundStep q key bound df = some df ∨
      ∃ a b c, dateBoundStep q key bound df = some (dictSet df bound (Value.date a b c)) := by
  cases hv : pyGet q key
  case str s =>
    cases hp : parseYMD s with
    | none => exact Or.inl (dateBoundStep_no_add q key bound df s hv hp)
    | some t =>
      obtain ⟨a, b, c⟩ := t
      exact Or.inr ⟨a, b, c, dateBoundStep_add q key bound df s a b c hv hp⟩
  all_goals rw [hv] at h
  all_goals left
  all_goals apply dateBoundStep_falsy
  all_goals rw [hv]
  all_goals exact pyTruthy_false_of_strOrFalsy_nonstr _ h (by intro s; simp)

lemma tailSteps_pyGet_ne (q f2 df2 : List (String × Value)) (k : String)
    (h1 : k ≠ "date") (h2 : k ≠ "status") (h3 : k ≠ "reported_by") :
    pyGet (tailSteps q f2 df2) k = pyGet f2 k := by
  have e1 : ∀ (f : List (String × Value)) v, pyGet (dictSet f "date" v) k = pyGet f k :=
    fun f v => pyGet_dictSet_ne f "date" v k (Ne.symm h1)
  have e2 : ∀ (f : List (String × Value)) v, pyGet (dictSet f "status" v) k = pyGet f k :=
    fun f v => pyGet_dictSet_ne f "status" v k (Ne.symm h2)
  have e3 : ∀ (f : List (String × Value)) v, pyGet (dictSet f "reported_by" v) k = pyGet f k :=
    fun f v => pyGet_dictSet_ne f "reported_by" v k (Ne.symm h3)
  simp only [tailSteps]
  split_ifs <;> simp only [e1, e2, e3]

lemma tailSteps_containsKey_ne (q f2 df2 : List (String × Value)) (k : String)
    (h1 : k ≠ "date") (h2 : k ≠ "status") (h3 : k ≠ "reported_by") :
    dictContainsKey (tailSteps q f2 df2) k = dictContainsKey f2 k := by
  have e1 : ∀ (f : List (String × Value)) v,
      dictContainsKey (dictSet f "date" v) k = dictContainsKey f k :=
    fun f v => dictContainsKey_dictSet_ne f "date" v k (Ne.symm h1)
  have e2 : ∀ (f : List (String × Value)) v,
      dictContainsKey (dictSet f "status" v) k = dictContainsKey f k :=
    fun f v => dictContainsKey_dictSet_ne f "status" v k (Ne.symm h2)
  have e3 : ∀ (f : List (String × Value)) v,
      dictContainsKey (dictSet f "reported_by" v) k = dictContainsKey f k :=
    fun f v => dictContainsKey_dictSet_ne f "reported_by" v k (Ne.symm h3)
  simp only [tailSteps]
  split_ifs <;> simp only [e1, e2, e3]

lemma tailSteps_date (q f2 df2 : List (String × Value)) (hne : df2.isEmpty = false) :
    pyGet (tailSteps q f2 df2) "date" = Value.obj df2 := by
  have e2 : ∀ (f : List (String × Value)) v,
      pyGet (dictSet f "status" v) "date" = pyGet f "date" :=
    fun f v => pyGet_dictSet_ne f "status" v "date" (by decide)
  have e3 : ∀ (f : List (String × Value)) v,
      pyGet (dictSet f "reported_by" v) "date" = pyGet f "date" :=
    fun f v => pyGet_dictSet_ne f "reported_by" v "date" (by decide)
  simp only [tailSteps]
  split_ifs <;> simp_all [pyGet_dictSet_self]

lemma tailSteps_date_empty (q f2 : List (String × Value)) :
    pyGet (tailSteps q f2 []) "date" = pyGet f2 "date" := by
  have e2 : ∀ (f : List (String × Value)) v,
      pyGet (dictSet f "status" v) "date" = pyGet f "date" :=
    fun f v => pyGet_dictSet_ne f "status" v "date" (by decide)
  have e3 : ∀ (f : List (String × Value)) v,
      pyGet (dictSet f "reported_by" v) "date" = pyGet f "date" :=
    fun f v => pyGet_dictSet_ne f "reported_by" v "date" (by decide)
  simp only [tailSteps]
  split_ifs <;> simp_all

lemma crimeTypeStep_shape (q f1 : List (String × Value))
    (h : crimeTypeStep q [] = some f1) :
    f1 = [] ∨ ∃ v, f1 = [("$or", v)] := by
  simp only [crimeTypeStep] at h
  by_cases ht : pyTruthy (pyGet q "crime_type") = true
  · rw [if_pos ht] at h
    cases hv : pyGet q "crime_type" with
    | str s =>
      rw [hv] at h
      have h' : some [("$or", Value.arr (catOrList (lowerStr s)))] = some f1 := h
      exact Or.inr ⟨_, (Option.some_inj.mp h').symm⟩
    | null => rw [hv] at h; exact absurd h (by simp)
    | bool b => rw [hv] at h; exact absurd h (by simp)
    | int n => rw [hv] at h; exact absurd h (by simp)
    | date a b c => rw [hv] at h; exact absurd h (by simp)
    | arr l => rw [hv] at h; exact absurd h (by simp)
    | obj o => rw [hv] at h; exact absurd h (by simp)
  · rw [if_neg ht] at h
    exact Or.inl (Option.some_inj.mp h).symm

lemma locationStep_shape (q f1 f2 : List (String × Value))
    (hs : f1 = [] ∨ ∃ v, f1 = [("$or", v)])
    (h : locationStep q f1 = some f2) :
    f2 = [] ∨ (∃ v, f2 = [("$or", v)]) ∨ (∃ v, f2 = [("$and", v)]) := by
  simp only [locationStep] at h
  by_cases ht : pyTruthy (pyGet q "location") = true
  · rw [if_pos ht] at h
    cases hv : pyGet q "location" with
    | null => rw [hv] at h; exact absurd h (by simp)
    | bool b => rw [hv] at h; exact absurd h (by simp)
    | int n => rw [hv] at h; exact absurd h (by simp)
    | date a b c => rw [hv] at h; exact absurd h (by simp)
    | arr l => rw [hv] at h; exact absurd h (by simp)
    | obj o => rw [hv] at h; exact absurd h (by simp)
    | str s =>
      rw [hv] at h
      have h' : (if dictContainsKey f1 "$or" = true then
          some [("$and", Value.arr [Value.obj [("$or", pyGet f1 "$or")],
            Value.obj [("$or", Value.arr (locOrList (lowerStr s)))]])]
          else some (dictSet f1 "$or" (Value.arr (locOrList (lowerStr s))))) = some f2 := h
      by_cases hc : dictContainsKey f1 "$or" = true
      · rw [if_pos hc] at h'
        exact Or.inr (Or.inr ⟨_, (Option.some_inj.mp h').symm⟩)
      · rw [if_neg hc] at h'
        have hf2 : dictSet f1 "$or" (Value.arr (locOrList (lowerStr s))) = f2 :=
          Option.some_inj.mp h'
        rcases hs with rfl | ⟨v, rfl⟩
        · exact Or.inr (Or.inl ⟨_, hf2.symm⟩)
        · refine Or.inr (Or.inl ⟨Value.arr (locOrList (lowerStr s)), ?_⟩)
          rw [← hf2]
          rfl
  · rw [if_neg ht] at h
    obtain rfl : f1 = f2 := Option.some_inj.mp h
    rcases hs with rfl | ⟨v, rfl⟩
    · exact Or.inl rfl
    · exact Or.inr (Or.inl ⟨v, rfl⟩)

lemma shape_props (f : List (String × Value))
    (hs : f = [] ∨ (∃ v, f = [("$or", v)]) ∨ (∃ v, f = [("$and", v)]))
    (k : String) (h1 : k ≠ "$or") (h2 : k ≠ "$and") :
    pyGet f k = Value.null ∧ dictContainsKey f k = false := by
  rcases hs with rfl | ⟨v, rfl⟩ | ⟨v, rfl⟩
  · exact ⟨rfl, rfl⟩
  · constructor
    · simp [pyGet, Ne.symm h1]
    · simp [dictContainsKey, Ne.symm h1]
  · constructor
    · simp [pyGet, Ne.symm h2]
    · simp [dictContainsKey, Ne.symm h2]

lemma wellTyped_parts (q : List (String × Value)) (h : wellTypedQuery q = true) :
    strOrFalsy (pyGet q "crime_type") = true ∧ strOrFalsy (pyGet q "location") = true ∧
    strOrFalsy (pyGet q "date_start") = true ∧ strOrFalsy (pyGet q "date_end") = true := by
  simp only [wellTypedQuery, Bool.and_eq_true] at h
  exact ⟨h.1.1.1, h.1.1.2, h.1.2, h.2⟩

/-- Claim C1: on every (well-typed) query whose `crime_type` and `location`
fields are both present and non-empty, `build_search_filters` produces the
conjunction `{"$and": [{"$or": category conditions}, {"$or": location
conditions}]}` — the category group is the `Or` over `crime_type`,
`crime_category`, `crime_subcategory` and the location group the `Or` over
`location`, `city`, `address`, `state`, `country` — and the result carries
no top-level `$or` key, i.e. the two groups are never merged into a single
flat `Or`. -/
theorem build_search_filters_and_of_ors (q : List (String × Value)) (ct loc : String)
    (hct : pyGet q "crime_type" = Value.str ct) (hct0 : ct ≠ "")
    (hloc : pyGet q "location" = Value.str loc) (hloc0 : loc ≠ "")
    (hds : strOrFalsy (pyGet q "date_start") = true)
    (hde : strOrFalsy (pyGet q "date_end") = true) :
    ∃ f, build_search_filters q = some f ∧
      pyGet f "$and" = Value.arr
        [Value.obj [("$or", Value.arr (catOrList (lowerStr ct)))],
         Value.obj [("$or", Value.arr (locOrList (lowerStr loc)))]] ∧
      dictContainsKey f "$or" = false := by
  have hf1 := crimeTypeStep_str_nil q ct hct hct0
  have hcont : dictContainsKey [("$or", Value.arr (catOrList (lowerStr ct)))] "$or" = true := by
    simp [dictContainsKey]
  have hf2 := locationStep_merge q [("$or", Value.arr (catOrList (lowerStr ct)))]
    loc hloc hloc0 hcont
  rw [show pyGet [("$or", Value.arr (catOrList (lowerStr ct)))] "$or"
      = Value.arr (catOrList (lowerStr ct)) from by simp [pyGet]] at hf2
  obtain ⟨df1, hd1⟩ : ∃ d, dateBoundStep q "date_start" "$gte" [] = some d := by
    rcases dateBoundStep_shape q "date_start" "$gte" [] hds with h | ⟨a, b, c, h⟩ <;>
      exact ⟨_, h⟩
  obtain ⟨df2, hd2⟩ : ∃ d, dateBoundStep q "date_end" "$lte" df1 = some d := by
    rcases dateBoundStep_shape q "date_end" "$lte" df1 hde with h | ⟨a, b, c, h⟩ <;>
      exact ⟨_, h⟩
  refine ⟨tailSteps q
    [("$and", Value.arr [Value.obj [("$or", Value.arr (catOrList (lowerStr ct)))],
      Value.obj [("$or", Value.arr (locOrList (lowerStr loc)))]])] df2, ?_, ?_, ?_⟩
  · simp only [build_search_filters, hf1, hf2, hd1, hd2]
  · rw [tailSteps_pyGet_ne q _ df2 "$and" (by decide) (by decide) (by decide)]
    simp [pyGet]
  · rw [tailSteps_containsKey_ne q _ df2 "$or" (by decide) (by decide) (by decide)]
    simp [dictContainsKey, show ("$and" == "$or") = false from by decide]

theorem build_search_filters_and_of_ors_witness :
    ∃ f, build_search_filters
        [("crime_type", Value.str "Theft"), ("location", Value.str "Mumbai")] = some f ∧
      pyGet f "$and" = Value.arr
        [Value.obj [("$or", Value.arr (catOrList (lowerStr "Theft")))],
         Value.obj [("$or", Value.arr (locOrList (lowerStr "Mumbai")))]] ∧
      dictContainsKey f "$or" = false :=
  build_search_filters_and_of_ors
    [("crime_type", Value.str "Theft"), ("location", Value.str "Mumbai")]
    "Theft" "Mumbai" rfl (by decide) rfl (by decide) (by decide) (by decide)

/-- Claim C3: on every well-typed query, (1) a `date_start` value that
fails `strptime` parsing is silently dropped — `build_search_filters`
still succeeds (raises nothing) and the resulting filter carries no lower
date bound; (2) symmetrically for `date_end` and the upper bound; and
(3) when both dates parse, the two bounds land in ONE `"date"` entry
holding both the inclusive `$gte` and `$lte` bounds, not in two separate
nodes. -/
theorem build_search_filters_dates (q : List (String × Value))
    (hwt : wellTypedQuery q = true) :
    (∀ s, pyGet q "date_start" = Value.str s → parseYMD s = none →
      ∃ f, build_search_filters q = some f ∧
        dictContainsKey (dateNode f) "$gte" = false) ∧
    (∀ s, pyGet q "date_end" = Value.str s → parseYMD s = none →
      ∃ f, build_search_filters q = some f ∧
        dictContainsKey (dateNode f) "$lte" = false) ∧
    (∀ s e a b c x y z, pyGet q "date_start" = Value.str s → parseYMD s = some (a, b, c) →
      pyGet q "date_end" = Value.str e → parseYMD e = some (x, y, z) →
      ∃ f, build_search_filters q = some f ∧
        pyGet f "date"
          = Value.obj [("$gte", Value.date a b c), ("$lte", Value.date x y z)]) := by
  obtain ⟨hct, hloc, hds, hde⟩ := wellTyped_parts q hwt
  obtain ⟨f1, hf1⟩ := crimeTypeStep_total q [] hct
  obtain ⟨f2, hf2⟩ := locationStep_total q f1 hloc
  have hshape2 := locationStep_shape q f1 f2 (crimeTypeStep_shape q f1 hf1) hf2
  have hprops := shape_props f2 hshape2 "date" (by decide) (by decide)
  refine ⟨?_, ?_, ?_⟩
  · intro s hs hp
    have hd1 : dateBoundStep q "date_start" "$gte" [] = some [] :=
      dateBoundStep_no_add q "date_start" "$gte" [] s hs hp
    rcases dateBoundStep_shape q "date_end" "$lte" [] hde with hd2 | ⟨a, b, c, hd2⟩
    · refine ⟨tailSteps q f2 [], ?_, ?_⟩
      · simp only [build_search_filters, hf1, hf2, hd1, hd2]
      · simp only [dateNode]
        rw [tailSteps_date_empty q f2, hprops.1]
        rfl
    · rw [show dictSet ([] : List (String × Value)) "$lte" (Value.date a b c)
          = [("$lte", Value.date a b c)] from rfl] at hd2
      refine ⟨tailSteps q f2 [("$lte", Value.date a b c)], ?_, ?_⟩
      · simp only [build_search_filters, hf1, hf2, hd1, hd2]
      · simp only [dateNode]
        rw [tailSteps_date q f2 [("$lte", Value.date a b c)] rfl]
        simp [dictContainsKey, show ("$lte" == "$gte") = false from by decide]
  · intro s hs hp
    rcases dateBoundStep_shape q "date_start" "$gte" [] hds with hd1 | ⟨a, b, c, hd1⟩
    · have hd2 : dateBoundStep q "date_end" "$lte" [] = some [] :=
        dateBoundStep_no_add q "date_end" "$lte" [] s hs hp
      refine ⟨tailSteps q f2 [], ?_, ?_⟩
      · simp only [build_search_filters, hf1, hf2, hd1, hd2]
      · simp only [dateNode]
        rw [tailSteps_date_empty q f2, hprops.1]
        rfl
    · rw [show dictSet ([] : List (String × Value)) "$gte" (Value.date a b c)
          = [("$gte", Value.date a b c)] from rfl] at hd1
      have hd2 : dateBoundStep q "date_end" "$lte" [("$gte", Value.date a b c)]
          = some [("$gte", Value.date a b c)] :=
        dateBoundStep_no_add q "date_end" "$lte" [("$gte", Value.date a b c)] s hs hp
      refine ⟨tailSteps q f2 [("$gte", Value.date a b c)], ?_, ?_⟩
      · simp only [build_search_filters, hf1, hf2, hd1, hd2]
      · simp only [dateNode]
        rw [tailSteps_date q f2 [("$gte", Value.date a b c)] rfl]
        simp [dictContainsKey, show ("$gte" == "$lte") = false from by decide]
  · intro s e a b c x y z hs hps he hpe
    have hd1 := dateBoundStep_add q "date_start" "$gte" [] s a b c hs hps
    rw [show dictSet ([] : List (String × Value)) "$gte" (Value.date a b c)
        = [("$gte", Value.date a b c)] from rfl] at hd1
    have hd2 := dateBoundStep_add q "date_end" "$lte" [("$gte", Value.date a b c)]
      e x y z he hpe
    rw [show dictSet [("$gte", Value.date a b c)] "$lte" (Value.date x y z)
        = [("$gte", Value.date a b c), ("$lte", Value.date x y z)] from by
      simp [dictSet, show ("$gte" == "$lte") = false from by decide]] at hd2
    refine ⟨tailSteps q f2 [("$gte", Value.date a b c), ("$lte", Value.date x y z)],
      ?_, ?_⟩
    · simp only [build_search_filters, hf1, hf2, hd1, hd2]
    · exact tailSteps_date q f2 _ rfl

theorem build_search_filters_dates_witness :
    ∃ f, build_search_filters [("date_start", Value.str "2023-13-01")] = some f ∧
      dictContainsKey (dateNode f) "$gte" = false :=
  (build_search_filters_dates [("date_start", Value.str "2023-13-01")] (by decide)).1
    "2023-13-01" rfl (by decide)
